import Mathlib

/-!
Shallow embedding of `AVSCommon/Utils/src/TimeUtils.cpp` (alexaClientSDK,
namespace `avsCommon::utils::timing`) and proofs about it.

Modelling conventions:
* `std::time_t`, `int` and `int64_t` are modelled as `Int` (the values reached
  in the claims fit comfortably in 64 bits, so wrap-around never occurs).
* C++ `/` and `%` on signed integers truncate toward zero; they are modelled by
  `Int.tdiv` and `Int.tmod`.  (The source asserts this rounding behaviour with
  `static_assert(static_cast<std::time_t>(-1) / 2 == 0)`.)
* C++ `year & 3` is modelled by `Int.land year 3`, which has two's-complement
  semantics for negative operands, as on every platform the source targets.
* Output parameters (`std::time_t*`, `int64_t*`, `std::string*`) are modelled
  by threading the pointee value through the function; a nullable pointer
  becomes an `Option` pointee (`none` = null pointer).
* `std::string` is modelled as `String`, viewed as its list of characters
  (all inputs of interest are ASCII, so characters coincide with bytes).
* External collaborators that are not part of this translation unit
  (`stringToInt` from StringUtils, `SafeCTimeAccess::getGmtime`, `strftime`)
  are modelled from the spec; each such definition carries a doc comment
  starting with `Modelled from the spec:`.
-/

/-! ## Constants of the custom timegm implementation (lines 148-156) -/

def kSecondsInMinute : Int := 60

def kMinutesInHour : Int := 60

def kHoursInDay : Int := 24

def kDaysInYear : Int := 365

def kSecondsInHour : Int := kSecondsInMinute * kMinutesInHour

def kSecondsInDay : Int := kSecondsInHour * kHoursInDay

def kSecondsInYear : Int := kDaysInYear * kSecondsInDay

def kEpochYearBase : Int := 1970

def kTMYearBase : Int := 1900

/-- Cumulative days before each month, common year (source lines 157-170). -/
def kDaysUptoMonth : List Int :=
  [0, 31, 31 + 28, 31 + 28 + 31, 31 + 28 + 31 + 30, 31 + 28 + 31 + 30 + 31,
   31 + 28 + 31 + 30 + 31 + 30, 31 + 28 + 31 + 30 + 31 + 30 + 31,
   31 + 28 + 31 + 30 + 31 + 30 + 31 + 31, 31 + 28 + 31 + 30 + 31 + 30 + 31 + 31 + 30,
   31 + 28 + 31 + 30 + 31 + 30 + 31 + 31 + 30 + 31,
   31 + 28 + 31 + 30 + 31 + 30 + 31 + 31 + 30 + 31 + 30]

/-- Cumulative days before each month, leap year (source lines 171-184). -/
def kDaysUptoMonthLeapYear : List Int :=
  [0, 31, 31 + 29, 31 + 29 + 31, 31 + 29 + 31 + 30, 31 + 29 + 31 + 30 + 31,
   31 + 29 + 31 + 30 + 31 + 30, 31 + 29 + 31 + 30 + 31 + 30 + 31,
   31 + 29 + 31 + 30 + 31 + 30 + 31 + 31, 31 + 29 + 31 + 30 + 31 + 30 + 31 + 31 + 30,
   31 + 29 + 31 + 30 + 31 + 30 + 31 + 31 + 30 + 31,
   31 + 29 + 31 + 30 + 31 + 30 + 31 + 31 + 30 + 31 + 30]

/-- Source lines 186-192.  The argument is a year with base 1900 (`tm_year`). -/
def IsLeapYear (year : Int) : Bool :=
  let common_year : Bool :=
    (Int.land year 3 != 0) ||
      (((year + kTMYearBase).tmod 100 == 0) && ((year + kTMYearBase).tmod 400 != 0))
  !common_year

/-- Source line 194: `(kEpochYearBase + 3) % 4`. -/
def kPosBase4 : Int := (kEpochYearBase + 3).tmod 4

/-- Source line 195: `(kEpochYearBase + 99) % 100`. -/
def kPosBase100 : Int := (kEpochYearBase + 99).tmod 100

/-- Source line 196: `(kEpochYearBase + 399) % 400`. -/
def kPosBase400 : Int := (kEpochYearBase + 399).tmod 400

/-- Source line 201: `4 - (kEpochYearBase % 4)`. -/
def kNegBase4 : Int := 4 - kEpochYearBase.tmod 4

/-- Source line 202: `100 - (kEpochYearBase % 100)`. -/
def kNegBase100 : Int := 100 - kEpochYearBase.tmod 100

/-- Source line 203: `400 - (kEpochYearBase % 400)`. -/
def kNegBase400 : Int := 400 - kEpochYearBase.tmod 400

/-- Source lines 206-215.  Number of leap days since 1970; the argument is a
year with base 1970.  C++ integer division truncates toward zero (`tdiv`). -/
def NumLeapDays (year : Int) : Int :=
  if 0 ≤ year then
    (year + kPosBase4).tdiv 4 - (year + kPosBase100).tdiv 100 + (year + kPosBase400).tdiv 400
  else
    (year - kNegBase4).tdiv 4 - (year - kNegBase100).tdiv 100 + (year - kNegBase400).tdiv 400

/-- The fields of `struct std::tm` that TimeUtils.cpp reads or writes. -/
structure Tm where
  tm_sec : Int
  tm_min : Int
  tm_hour : Int
  tm_mday : Int
  tm_mon : Int
  tm_year : Int
  tm_isdst : Int
deriving DecidableEq, Repr

/-- Source lines 219-234.  The array accesses `kDaysUptoMonth[tm->tm_mon]` are
modelled with `List.getD` (index out of `[0, 11]` gives the C++ program
undefined behaviour; the model returns 0 there). -/
def timegmCustom (tm : Tm) : Int :=
  (tm.tm_year + kTMYearBase - kEpochYearBase) * kSecondsInYear +
    NumLeapDays (tm.tm_year + kTMYearBase - kEpochYearBase) * kSecondsInDay +
    (if IsLeapYear tm.tm_year then kDaysUptoMonthLeapYear.getD tm.tm_mon.toNat 0
     else kDaysUptoMonth.getD tm.tm_mon.toNat 0) * kSecondsInDay +
    (tm.tm_mday - 1) * kSecondsInDay + tm.tm_hour * kSecondsInHour +
    tm.tm_min * kSecondsInMinute + tm.tm_sec

/-- Source lines 238-263 (the `USE_CUSTOM_TIMEGM` branch, which is the code of
this repository; the other branch calls the platform's `timegm`).  The output
pointer is modelled as an `Option` pointee: `none` is a null pointer.  With a
non-null pointer the function writes `timegmCustom utcTm` and returns true;
with a null pointer it returns false without writing. -/
def convertToUtcTimeT (utcTm : Tm) (ret : Option Int) : Bool × Option Int :=
  match ret with
  | none => (false, none)
  | some _ => (true, some (timegmCustom utcTm))

/-! ## Fixed-offset layout of the ISO-8601 input string (lines 71-119) -/

def ENCODED_TIME_STRING_YEAR_STRING_LENGTH : Nat := 4

def ENCODED_TIME_STRING_MONTH_STRING_LENGTH : Nat := 2

def ENCODED_TIME_STRING_DAY_STRING_LENGTH : Nat := 2

def ENCODED_TIME_STRING_HOUR_STRING_LENGTH : Nat := 2

def ENCODED_TIME_STRING_MINUTE_STRING_LENGTH : Nat := 2

def ENCODED_TIME_STRING_SECOND_STRING_LENGTH : Nat := 2

def ENCODED_TIME_STRING_POSTFIX_STRING_LENGTH : Nat := 4

def ENCODED_TIME_STRING_DASH_SEPARATOR_STRING : String := "-"

def ENCODED_TIME_STRING_T_SEPARATOR_STRING : String := "T"

def ENCODED_TIME_STRING_COLON_SEPARATOR_STRING : String := ":"

def ENCODED_TIME_STRING_PLUS_SEPARATOR_STRING : String := "+"

def ENCODED_TIME_STRING_YEAR_OFFSET : Nat := 0

def ENCODED_TIME_STRING_MONTH_OFFSET : Nat :=
  ENCODED_TIME_STRING_YEAR_OFFSET + ENCODED_TIME_STRING_YEAR_STRING_LENGTH +
    ENCODED_TIME_STRING_DASH_SEPARATOR_STRING.length

def ENCODED_TIME_STRING_DAY_OFFSET : Nat :=
  ENCODED_TIME_STRING_MONTH_OFFSET + ENCODED_TIME_STRING_MONTH_STRING_LENGTH +
    ENCODED_TIME_STRING_DASH_SEPARATOR_STRING.length

def ENCODED_TIME_STRING_HOUR_OFFSET : Nat :=
  ENCODED_TIME_STRING_DAY_OFFSET + ENCODED_TIME_STRING_DAY_STRING_LENGTH +
    ENCODED_TIME_STRING_T_SEPARATOR_STRING.length

def ENCODED_TIME_STRING_MINUTE_OFFSET : Nat :=
  ENCODED_TIME_STRING_HOUR_OFFSET + ENCODED_TIME_STRING_HOUR_STRING_LENGTH +
    ENCODED_TIME_STRING_COLON_SEPARATOR_STRING.length

def ENCODED_TIME_STRING_SECOND_OFFSET : Nat :=
  ENCODED_TIME_STRING_MINUTE_OFFSET + ENCODED_TIME_STRING_MINUTE_STRING_LENGTH +
    ENCODED_TIME_STRING_COLON_SEPARATOR_STRING.length

def ENCODED_TIME_STRING_EXPECTED_LENGTH : Nat :=
  ENCODED_TIME_STRING_SECOND_OFFSET + ENCODED_TIME_STRING_SECOND_STRING_LENGTH +
    ENCODED_TIME_STRING_PLUS_SEPARATOR_STRING.length + ENCODED_TIME_STRING_POSTFIX_STRING_LENGTH

/-- Model of `std::string::substr(pos, len)` for in-range arguments. -/
def substr (s : String) (pos len : Nat) : String :=
  String.mk ((s.data.drop pos).take len)

/-- Modelled from the spec: the external string-to-integer collaborator
(`stringToInt` from `AVSCommon/Utils/String/StringUtils`, not part of src/):
it parses a fixed-width digit substring and fails if the input is empty or
contains non-digit characters. -/
def stringToInt (s : String) : Option Int :=
  if s.data ≠ [] ∧ s.data.all Char.isDigit then
    some (s.data.foldl (fun acc c => 10 * acc + ((c.toNat : Int) - 48)) 0)
  else
    none

/-- The distinct failure exits of `convert8601TimeStringToUnix`
(each one is a separate `ACSDK_ERROR` log line in the source; the spec names
them `InvalidLength` / `InvalidField(name)`). -/
inductive ParseError
  | invalidLength
  | invalidField (name : String)
  | convertFailed
deriving DecidableEq, Repr

/-- Source lines 265-336, result semantics for a non-null output pointer:
which failure exit is taken, or the produced epoch value.  Field substrings
are extracted at the fixed offsets, converted by `stringToInt`, adjusted
(`tm_isdst = 0`, `tm_year -= 1900`, `tm_mon -= 1`) and passed through
`convertToUtcTimeT`. -/
def convert8601TimeStringToUnixRes (timeString : String) : Except ParseError Int :=
  if timeString.length ≠ ENCODED_TIME_STRING_EXPECTED_LENGTH then
    .error .invalidLength
  else
    match stringToInt (substr timeString ENCODED_TIME_STRING_YEAR_OFFSET
        ENCODED_TIME_STRING_YEAR_STRING_LENGTH) with
    | none => .error (.invalidField "year")
    | some tm_year =>
      match stringToInt (substr timeString ENCODED_TIME_STRING_MONTH_OFFSET
          ENCODED_TIME_STRING_MONTH_STRING_LENGTH) with
      | none => .error (.invalidField "month")
      | some tm_mon =>
        match stringToInt (substr timeString ENCODED_TIME_STRING_DAY_OFFSET
            ENCODED_TIME_STRING_DAY_STRING_LENGTH) with
        | none => .error (.invalidField "day")
        | some tm_mday =>
          match stringToInt (substr timeString ENCODED_TIME_STRING_HOUR_OFFSET
              ENCODED_TIME_STRING_HOUR_STRING_LENGTH) with
          | none => .error (.invalidField "hour")
          | some tm_hour =>
            match stringToInt (substr timeString ENCODED_TIME_STRING_MINUTE_OFFSET
                ENCODED_TIME_STRING_MINUTE_STRING_LENGTH) with
            | none => .error (.invalidField "minute")
            | some tm_min =>
              match stringToInt (substr timeString ENCODED_TIME_STRING_SECOND_OFFSET
                  ENCODED_TIME_STRING_SECOND_STRING_LENGTH) with
              | none => .error (.invalidField "second")
              | some tm_sec =>
                match convertToUtcTimeT
                    { tm_sec := tm_sec, tm_min := tm_min, tm_hour := tm_hour,
                      tm_mday := tm_mday, tm_mon := tm_mon - 1,
                      tm_year := tm_year - 1900, tm_isdst := 0 } (some 0) with
                | (true, some v) => .ok v
                | _ => .error .convertFailed

/-- Source lines 265-336, pointer-level behaviour.  The source checks the
output pointer for null first and assigns `*convertedTime` only at the single
success exit (line 334), so every failure exit leaves the pointee untouched. -/
def convert8601TimeStringToUnix (timeString : String) (convertedTime : Option Int) :
    Bool × Option Int :=
  match convertedTime with
  | none => (false, none)
  | some prev =>
    match convert8601TimeStringToUnixRes timeString with
    | .error _ => (false, some prev)
    | .ok v => (true, some v)

/-- Source lines 338-348.  `now` is the value obtained from the external
system clock.  With a non-null pointer the function always writes `now` to the
pointee (line 345) and then returns `now >= 0`. -/
def getCurrentUnixTime (now : Int) (currentTime : Option Int) : Bool × Option Int :=
  match currentTime with
  | none => (false, none)
  | some _ => (decide (0 ≤ now), some now)

/-! ## The civil-time data model of the spec (section 3) -/

/-- A civil calendar time, assumed UTC (spec section 3). -/
structure CivilTime where
  year : Int
  month : Int
  day : Int
  hour : Int
  minute : Int
  second : Int
deriving DecidableEq, Repr

/-- The `struct tm` view of a civil time: the adjustments of source lines
322-325 (`tm_year` is based 1900, `tm_mon` is based 0, DST cleared). -/
def tmOfCivil (c : CivilTime) : Tm :=
  { tm_sec := c.second, tm_min := c.minute, tm_hour := c.hour,
    tm_mday := c.day, tm_mon := c.month - 1, tm_year := c.year - 1900, tm_isdst := 0 }

/-- The spec's `civilToEpoch`: `timegmCustom` applied to the `struct tm` view
of the civil time. -/
def civilToEpoch (c : CivilTime) : Int := timegmCustom (tmOfCivil c)

/-- The Gregorian leap-year rule as stated in the spec (section 4.1). -/
def IsGregorianLeapYear (Y : Int) : Prop :=
  Y % 4 = 0 ∧ (Y % 100 ≠ 0 ∨ Y % 400 = 0)

instance decIsGregorianLeapYear (Y : Int) : Decidable (IsGregorianLeapYear Y) :=
  inferInstanceAs (Decidable (Y % 4 = 0 ∧ (Y % 100 ≠ 0 ∨ Y % 400 = 0)))

/-- Boolean form of the Gregorian leap-year rule. -/
def isGregorianLeap (Y : Int) : Bool :=
  Y % 4 == 0 && (Y % 100 != 0 || Y % 400 == 0)

/-- Length in days of a Gregorian year. -/
def yearLength (y : Int) : Int := if isGregorianLeap y then 366 else 365

/-- Length in days of month `m` (1-12) of a year with leap flag `leap`. -/
def monthLength (leap : Bool) (m : Int) : Int :=
  if m = 2 then (if leap then 29 else 28)
  else if m = 4 ∨ m = 6 ∨ m = 9 ∨ m = 11 then 30 else 31

/-- Number of days a valid day-of-month can take in month `m` of year `y`. -/
def daysInMonth (y m : Int) : Int := monthLength (isGregorianLeap y) m

/-- Cumulative days of the first `k` months (months `1..k`) of a year. -/
def monthPrefixDays (leap : Bool) : Nat → Int
  | 0 => 0
  | k + 1 => monthPrefixDays leap k + monthLength leap (k + 1)

/-- Modelled from the spec: month extraction step of the standard inverse
civil-calendar algorithm (the `epochToCivil` direction is delegated to the
external safe calendar-access collaborator and is not part of src/).  Starting
at month `m` it peels whole months off the 0-based day-of-year `doy` and
returns the month together with the 1-based day-of-month. -/
def monthFromYearDay : Nat → Bool → Int → Int → Int × Int
  | 0, _, m, doy => (m, doy + 1)
  | fuel + 1, leap, m, doy =>
    if doy < monthLength leap m then (m, doy + 1)
    else monthFromYearDay fuel leap (m + 1) (doy - monthLength leap m)

/-- Modelled from the spec: year extraction step of the standard inverse
civil-calendar algorithm.  Starting at year `y` with `rem` days relative to
January 1 of `y`, it walks year by year until the remainder falls inside the
current year. -/
def yearFromDays : Nat → Int → Int → Int × Int
  | 0, y, rem => (y, rem)
  | fuel + 1, y, rem =>
    if rem < 0 then yearFromDays fuel (y - 1) (rem + yearLength (y - 1))
    else if yearLength y ≤ rem then yearFromDays fuel (y + 1) (rem - yearLength y)
    else (y, rem)

/-- Modelled from the spec: the external collaborator's `epochToCivil`
(`getUtcCivilBreakdown`), the standard UTC epoch-to-civil breakdown.  Splits
the epoch value into days since 1970-01-01 (flooring) and seconds of day, then
recovers year, month and day.  The fuel bound 6000 covers every instant whose
year lies within 1970 plus or minus 5999 years, far beyond the claims' range. -/
def epochToCivil (s : Int) : CivilTime :=
  let days := s / 86400
  let sod := s % 86400
  let yd := yearFromDays 6000 1970 days
  let md := monthFromYearDay 11 (isGregorianLeap yd.1) 1 yd.2
  { year := yd.1, month := md.1, day := md.2,
    hour := sod / 3600, minute := sod % 3600 / 60, second := sod % 60 }

/-- Modelled from the spec: the safe calendar-access collaborator
(`SafeCTimeAccess::getGmtime`): a thread-safe `gmtime`, i.e. the standard UTC
civil breakdown of an epoch value delivered as a `struct tm`. -/
def safeGetGmtime (timeSecs : Int) : Option Tm :=
  some (tmOfCivil (epochToCivil timeSecs))

/-! ## The RFC-3339 formatter (lines 350-382) -/

/-- Decimal rendering of an `Int`, as `operator<<(std::ostream&, long long)`
produces it. -/
def intToDecimalString (n : Int) : String :=
  if n < 0 then "-" ++ Nat.repr (-n).toNat else Nat.repr n.toNat

/-- Model of `std::setfill('0') << std::setw(w)` applied to an already
rendered value: pad on the left with `'0'` up to width `w`. -/
def padWithZeros (w : Nat) (s : String) : String :=
  if s.length < w then String.mk (List.replicate (w - s.length) '0') ++ s else s

/-- Modelled from the spec: `std::strftime` with the fixed format
`"%Y-%m-%dT%H:%M:%S"` renders the `tm` fields zero-padded (4-digit year,
2-digit month, day, hour, minute, second).  The 28-character buffer of the
source is never exceeded by this 19-character rendering. -/
def strftimeIsoDateTime (t : Tm) : String :=
  padWithZeros 4 (intToDecimalString (t.tm_year + 1900)) ++ "-" ++
    padWithZeros 2 (intToDecimalString (t.tm_mon + 1)) ++ "-" ++
    padWithZeros 2 (intToDecimalString t.tm_mday) ++ "T" ++
    padWithZeros 2 (intToDecimalString t.tm_hour) ++ ":" ++
    padWithZeros 2 (intToDecimalString t.tm_min) ++ ":" ++
    padWithZeros 2 (intToDecimalString t.tm_sec)

/-- Source lines 350-382.  `getGmtime` is the external safe calendar-access
collaborator; `tpMillis` is the time point's total count of milliseconds since
the epoch (`duration_cast<milliseconds>` of `tp.time_since_epoch()`);
`iso8601TimeString` is the pointee of the output parameter.  `sec` is
`duration_cast<seconds>(ms)`, which truncates toward zero (`tdiv`), and the
fractional field is `ms.count() % 1000` with C++ truncating remainder
(`tmod`), streamed through `setfill('0') << setw(3)`. -/
def convertTimeToUtcIso8601Rfc3339 (getGmtime : Int → Option Tm) (tpMillis : Int)
    (iso8601TimeString : String) : Bool × String :=
  let ms := tpMillis
  let sec := ms.tdiv 1000
  let timeSecs := sec
  match getGmtime timeSecs with
  | none => (false, iso8601TimeString)
  | some utcTm =>
    let buf := strftimeIsoDateTime utcTm
    if buf.length = 0 then (false, iso8601TimeString)
    else (true, buf ++ "." ++ padWithZeros 3 (intToDecimalString (ms.tmod 1000)) ++ "Z")

/-! ## Derived quantities used by the proofs -/

/-- Days between 1970-01-01 and January 1 of year `y` (negative before 1970):
the whole-day part of `timegmCustom` at January 1. -/
def epochDaysJan1 (y : Int) : Int := (y - 1970) * 365 + NumLeapDays (y - 1970)

/-- The floor-division leap-day formula of claim C1. -/
def leapDaysFloorFormula (y : Int) : Int :=
  (1969 + y).fdiv 4 - (1969 + y).fdiv 100 + (1969 + y).fdiv 400 - 477

/-- The set of Gregorian leap years `Y` with `a ≤ Y < b`. -/
def leapYearsIn (a b : Int) : Finset Int :=
  (Finset.Ico a b).filter IsGregorianLeapYear

/-! ## Arithmetic bridge lemmas -/

theorem kPosBase4_eq : kPosBase4 = 1 := rfl

theorem kPosBase100_eq : kPosBase100 = 69 := rfl

theorem kPosBase400_eq : kPosBase400 = 369 := rfl

theorem kNegBase4_eq : kNegBase4 = 2 := rfl

theorem kNegBase100_eq : kNegBase100 = 30 := rfl

theorem kNegBase400_eq : kNegBase400 = 30 := rfl

/-- The truncating-division implementation of `NumLeapDays` agrees with a
single Euclidean-division formula on all of `Int`. -/
theorem numLeapDays_eq_ediv (ys : Int) :
    NumLeapDays ys = (1969 + ys) / 4 - (1969 + ys) / 100 + (1969 + ys) / 400 - 477 := by
  unfold NumLeapDays
  rw [kPosBase4_eq, kPosBase100_eq, kPosBase400_eq, kNegBase4_eq, kNegBase100_eq, kNegBase400_eq]
  by_cases h : 0 ≤ ys
  · rw [if_pos h, Int.tdiv_eq_ediv (by omega) (by omega), Int.tdiv_eq_ediv (by omega) (by omega),
      Int.tdiv_eq_ediv (by omega) (by omega)]
    omega
  · rw [if_neg h, show ys - 2 = -(2 - ys) by ring, show ys - 30 = -(30 - ys) by ring,
      Int.neg_tdiv, Int.neg_tdiv, Int.neg_tdiv,
      Int.tdiv_eq_ediv (by omega) (by omega), Int.tdiv_eq_ediv (by omega) (by omega),
      Int.tdiv_eq_ediv (by omega) (by omega)]
    omega

theorem leapDaysFloorFormula_eq_ediv (y : Int) :
    leapDaysFloorFormula y = (1969 + y) / 4 - (1969 + y) / 100 + (1969 + y) / 400 - 477 := by
  unfold leapDaysFloorFormula
  rw [Int.fdiv_eq_ediv _ (by norm_num), Int.fdiv_eq_ediv _ (by norm_num),
    Int.fdiv_eq_ediv _ (by norm_num)]

theorem Ico_int_succ_self (a : Int) : Finset.Ico a (a + 1) = {a} := by
  ext x
  simp only [Finset.mem_Ico, Finset.mem_singleton]
  omega

/-- Counting recurrence at the right end of the interval. -/
theorem leapYearsIn_card_succ (a b : Int) (h : a ≤ b) :
    (leapYearsIn a (b + 1)).card =
      (leapYearsIn a b).card + (if IsGregorianLeapYear b then 1 else 0) := by
  unfold leapYearsIn
  rw [← Finset.Ico_union_Ico_eq_Ico h (by omega : b ≤ b + 1), Finset.filter_union,
    Finset.card_union_of_disjoint
      (Finset.disjoint_filter_filter (Finset.Ico_disjoint_Ico_consecutive a b (b + 1))),
    Ico_int_succ_self, Finset.filter_singleton]
  split <;> simp

/-- Counting recurrence at the left end of the interval. -/
theorem leapYearsIn_card_pred (a b : Int) (h : a ≤ b) :
    (leapYearsIn (a - 1) b).card =
      (leapYearsIn a b).card + (if IsGregorianLeapYear (a - 1) then 1 else 0) := by
  unfold leapYearsIn
  have hsingle : Finset.Ico (a - 1) a = {a - 1} := by
    ext x
    simp only [Finset.mem_Ico, Finset.mem_singleton]
    omega
  rw [← Finset.Ico_union_Ico_eq_Ico (show a - 1 ≤ a by omega) h, Finset.filter_union,
    Finset.card_union_of_disjoint
      (Finset.disjoint_filter_filter (Finset.Ico_disjoint_Ico_consecutive (a - 1) a b)),
    hsingle, Finset.filter_singleton]
  split <;> simp [Nat.add_comm]

/-- One-year step of the inclusion-exclusion leap count. -/
theorem leapCount_step (X : Int) :
    (X + 1) / 4 - (X + 1) / 100 + (X + 1) / 400 =
      X / 4 - X / 100 + X / 400 + (if IsGregorianLeapYear (X + 1) then 1 else 0) := by
  unfold IsGregorianLeapYear
  by_cases h4 : (X + 1) % 4 = 0
  · by_cases h100 : (X + 1) % 100 = 0
    · by_cases h400 : (X + 1) % 400 = 0
      · rw [if_pos ⟨h4, Or.inr h400⟩]; omega
      · rw [if_neg (by rintro ⟨-, h | h⟩ <;> [exact h h100; exact h400 h])]; omega
    · rw [if_pos ⟨h4, Or.inl h100⟩]; omega
  · rw [if_neg (fun hc => h4 hc.1)]; omega

theorem leapYears_count_up (n : Nat) :
    ((leapYearsIn 1970 (1970 + (n : Int))).card : Int) =
      (1969 + (n : Int)) / 4 - (1969 + (n : Int)) / 100 + (1969 + (n : Int)) / 400 - 477 := by
  induction n with
  | zero =>
    rw [show (1970 + ((0 : Nat) : Int)) = 1970 by norm_num]
    rw [leapYearsIn, Finset.Ico_self, Finset.filter_empty]
    decide
  | succ k ih =>
    rw [show (1970 + ((k + 1 : Nat) : Int)) = (1970 + (k : Int)) + 1 by push_cast; ring]
    have hrec := leapYearsIn_card_succ 1970 (1970 + (k : Int)) (by omega)
    have hstep := leapCount_step (1969 + (k : Int))
    rw [show (1969 + (k : Int)) + 1 = 1970 + (k : Int) by ring] at hstep
    by_cases hp : IsGregorianLeapYear (1970 + (k : Int))
    · rw [if_pos hp] at hrec hstep
      push_cast [hrec]
      rw [ih]
      clear ih hrec hp
      omega
    · rw [if_neg hp] at hrec hstep
      push_cast [hrec]
      rw [ih]
      clear ih hrec hp
      omega

theorem leapYears_count_down (n : Nat) :
    ((leapYearsIn (1970 - (n : Int)) 1970).card : Int) =
      477 - ((1969 - (n : Int)) / 4 - (1969 - (n : Int)) / 100 + (1969 - (n : Int)) / 400) := by
  induction n with
  | zero =>
    rw [show (1970 - ((0 : Nat) : Int)) = 1970 by norm_num]
    rw [leapYearsIn, Finset.Ico_self, Finset.filter_empty]
    decide
  | succ k ih =>
    rw [show (1970 - ((k + 1 : Nat) : Int)) = (1970 - (k : Int)) - 1 by push_cast; ring]
    have hrec := leapYearsIn_card_pred (1970 - (k : Int)) 1970 (by omega)
    have hstep := leapCount_step (1969 - (k : Int) - 1)
    rw [show (1969 - (k : Int) - 1) + 1 = 1969 - (k : Int) by ring,
      show (1969 : Int) - (k : Int) = 1970 - (k : Int) - 1 by ring] at hstep
    by_cases hp : IsGregorianLeapYear (1970 - (k : Int) - 1)
    · rw [if_pos hp] at hrec hstep
      push_cast [hrec]
      rw [ih]
      clear ih hrec hp
      omega
    · rw [if_neg hp] at hrec hstep
      push_cast [hrec]
      rw [ih]
      clear ih hrec hp
      omega

/-! ## Claim C1 -/

/-- C1: for every integer `y` (years since 1970), `NumLeapDays y` counts the
leap days between 1970 and `1970 + y`: for `y ≥ 0` it equals the number of
Gregorian leap years `Y` with `1970 ≤ Y < 1970 + y`, for `y < 0` it equals the
negation of the number of Gregorian leap years `Y` with `1970 + y ≤ Y < 1970`,
and for every `y` it equals the single floor-division formula
`(1969+y)/4 - (1969+y)/100 + (1969+y)/400 - 477`, despite the implementation's
truncating division with separate biased formulas for the two signs. -/
theorem C1_NumLeapDays_counts_leap_days (y : Int) :
    (0 ≤ y → NumLeapDays y = ((leapYearsIn 1970 (1970 + y)).card : Int)) ∧
    (y < 0 → NumLeapDays y = -((leapYearsIn (1970 + y) 1970).card : Int)) ∧
    NumLeapDays y = leapDaysFloorFormula y := by
  refine ⟨fun hy => ?_, fun hy => ?_, by rw [numLeapDays_eq_ediv, leapDaysFloorFormula_eq_ediv]⟩
  · obtain ⟨n, rfl⟩ : ∃ n : Nat, y = (n : Int) := ⟨y.toNat, (Int.toNat_of_nonneg hy).symm⟩
    rw [numLeapDays_eq_ediv, leapYears_count_up n]
  · obtain ⟨n, rfl⟩ : ∃ n : Nat, y = -(n : Int) :=
      ⟨(-y).toNat, by rw [Int.toNat_of_nonneg (by omega)]; ring⟩
    rw [numLeapDays_eq_ediv, show (1970 : Int) + -(n : Int) = 1970 - (n : Int) by ring,
      leapYears_count_down n]
    omega

/-- Witness for C1 at the concrete inputs `y = 3` and `y = -3`. -/
theorem C1_NumLeapDays_counts_leap_days_witness :
    NumLeapDays 3 = ((leapYearsIn 1970 1973).card : Int) ∧
      NumLeapDays (-3) = -((leapYearsIn 1967 1970).card : Int) := by
  constructor
  · have h := (C1_NumLeapDays_counts_leap_days 3).1 (by norm_num)
    norm_num at h
    exact h
  · have h := (C1_NumLeapDays_counts_leap_days (-3)).2.1 (by norm_num)
    norm_num at h
    exact h

/-! ## Claim C4 -/

theorem testBit_lt_four (x : Nat) (hx : x < 4) (i : Nat) : Nat.testBit x (i + 2) = false :=
  Nat.testBit_lt_two_pow (lt_of_lt_of_le hx (by
    calc (4 : Nat) = 2 ^ 2 := rfl
    _ ≤ 2 ^ (i + 2) := Nat.pow_le_pow_right (by norm_num) (by omega)))

theorem nat_land_three (m : Nat) : m &&& 3 = m % 4 := by
  apply Nat.eq_of_testBit_eq
  intro i
  rw [Nat.testBit_land, show (4 : Nat) = 2 ^ 2 from rfl, Nat.testBit_mod_two_pow]
  have h3 : Nat.testBit 3 i = decide (i < 2) := by
    match i with
    | 0 => rfl
    | 1 => rfl
    | i + 2 =>
      rw [testBit_lt_four 3 (by norm_num) i]
      simp [show ¬(i + 2 < 2) by omega]
  rw [h3, Bool.and_comm]

theorem nat_ldiff_three (m : Nat) : Nat.ldiff 3 m = 3 - m % 4 := by
  have hb0 : Nat.testBit m 0 = decide (m % 4 % 2 = 1) := by
    rw [Nat.testBit_zero, show m % 4 % 2 = m % 2 from Nat.mod_mod_of_dvd m (by norm_num)]
  have hb1 : Nat.testBit m 1 = decide (m % 4 / 2 = 1) := by
    have h := Nat.testBit_succ m 0
    rw [show Nat.succ 0 = 1 from rfl] at h
    rw [h, Nat.testBit_zero]
    have hq : m / 2 % 2 = m % 4 / 2 := by omega
    rw [hq]
  apply Nat.eq_of_testBit_eq
  intro i
  have hr : m % 4 = 0 ∨ m % 4 = 1 ∨ m % 4 = 2 ∨ m % 4 = 3 := by omega
  match i with
  | 0 =>
    rw [Nat.testBit_ldiff, hb0]
    rcases hr with h | h | h | h <;> rw [h] <;> rfl
  | 1 =>
    rw [Nat.testBit_ldiff, hb1]
    rcases hr with h | h | h | h <;> rw [h] <;> rfl
  | i + 2 =>
    rw [Nat.testBit_ldiff, testBit_lt_four 3 (by norm_num) i,
      testBit_lt_four (3 - m % 4) (by omega) i]
    rfl

/-- The C++ idiom `year & 3` computes the mathematical remainder modulo 4
(two's-complement bitwise and, also for negative years). -/
theorem int_land_three (y : Int) : Int.land y 3 = y % 4 := by
  rcases y with m | m
  · have h : Int.land (Int.ofNat m) 3 = Int.ofNat (m &&& 3) := rfl
    rw [h, nat_land_three, Int.ofNat_eq_natCast, Int.ofNat_eq_natCast]
    omega
  · have h : Int.land (Int.negSucc m) 3 = Int.ofNat (Nat.ldiff 3 m) := rfl
    rw [h, nat_ldiff_three, Int.negSucc_eq, Int.ofNat_eq_natCast]
    omega

/-- The implementation agrees with the Gregorian rule for every year `Y ≥ 0`
(passed to `IsLeapYear` with base 1900, as `tm_year` stores it). -/
theorem isLeapYear_eq_gregorian (Y : Int) (h : 0 ≤ Y) :
    (IsLeapYear (Y - 1900) = true ↔ IsGregorianLeapYear Y) := by
  unfold IsLeapYear IsGregorianLeapYear kTMYearBase
  rw [int_land_three, show Y - 1900 + 1900 = Y by ring,
    Int.tmod_eq_emod h (by norm_num), Int.tmod_eq_emod h (by norm_num)]
  simp only [Bool.not_eq_true', Bool.or_eq_false_iff, bne_eq_false_iff_eq,
    Bool.and_eq_false_iff, beq_eq_false_iff_ne, beq_iff_eq, ne_eq]
  omega

/-- C4: for every year `Y` in `[1600, 2400]`, `IsLeapYear (Y - 1900)` (the
predicate takes a base-1900 year and uses a bitwise and-with-3 test plus
century exceptions) returns true iff `Y` is divisible by 4 and (not divisible
by 100 or divisible by 400); in particular 2000 and 2004 give true, 1900 and
2001 give false. -/
theorem C4_IsLeapYear_gregorian :
    (∀ Y : Int, 1600 ≤ Y → Y ≤ 2400 →
      (IsLeapYear (Y - 1900) = true ↔ (Y % 4 = 0 ∧ (Y % 100 ≠ 0 ∨ Y % 400 = 0)))) ∧
    IsLeapYear (2000 - 1900) = true ∧ IsLeapYear (1900 - 1900) = false ∧
    IsLeapYear (2004 - 1900) = true ∧ IsLeapYear (2001 - 1900) = false := by
  exact ⟨fun Y h1 _ => isLeapYear_eq_gregorian Y (by omega), by decide, by decide, by decide,
    by decide⟩

/-- Witness for C4 at the concrete year 2000. -/
theorem C4_IsLeapYear_gregorian_witness :
    IsLeapYear (2000 - 1900) = true ↔
      ((2000 : Int) % 4 = 0 ∧ ((2000 : Int) % 100 ≠ 0 ∨ (2000 : Int) % 400 = 0)) :=
  C4_IsLeapYear_gregorian.1 2000 (by norm_num) (by norm_num)

/-! ## Claim C2 -/

/-- `civilToEpoch` splits into a whole-day part and the seconds of the day. -/
theorem civilToEpoch_split (y m d h mi s : Int) :
    civilToEpoch ⟨y, m, d, h, mi, s⟩ =
      86400 * (epochDaysJan1 y +
        (if IsLeapYear (y - 1900) then kDaysUptoMonthLeapYear.getD (m - 1).toNat 0
         else kDaysUptoMonth.getD (m - 1).toNat 0) + (d - 1)) +
      (h * 3600 + mi * 60 + s) := by
  simp only [civilToEpoch, tmOfCivil, timegmCustom, epochDaysJan1, kSecondsInYear, kSecondsInDay,
    kSecondsInHour, kSecondsInMinute, kMinutesInHour, kHoursInDay, kDaysInYear]
  rw [show y - 1900 + kTMYearBase - kEpochYearBase = y - 1970 by
    unfold kTMYearBase kEpochYearBase; ring]
  ring

/-- The hour, minute and second fields enter `civilToEpoch` additively. -/
theorem civilToEpoch_hms (y m d h mi s : Int) :
    civilToEpoch ⟨y, m, d, h, mi, s⟩ = civilToEpoch ⟨y, m, d, 0, 0, 0⟩ + h * 3600 + mi * 60 + s := by
  simp only [civilToEpoch, tmOfCivil, timegmCustom, kSecondsInHour, kSecondsInMinute,
    kMinutesInHour]
  ring

/-- C2: `civilToEpoch` (`timegmCustom`) hits the specified boundary values:
1969-12-31T23:59:59 gives -1, 1970-01-01T00:00:00 gives 0, and for any fixed
hour, minute and second the 2000-03-01 value exceeds the 2000-02-29 value by
exactly 86400 seconds. -/
theorem C2_civilToEpoch_boundaries :
    civilToEpoch ⟨1969, 12, 31, 23, 59, 59⟩ = -1 ∧
    civilToEpoch ⟨1970, 1, 1, 0, 0, 0⟩ = 0 ∧
    ∀ hour minute second : Int,
      civilToEpoch ⟨2000, 3, 1, hour, minute, second⟩ -
        civilToEpoch ⟨2000, 2, 29, hour, minute, second⟩ = 86400 := by
  refine ⟨by decide, by decide, fun hour minute second => ?_⟩
  rw [civilToEpoch_hms 2000 3 1, civilToEpoch_hms 2000 2 29,
    show civilToEpoch ⟨2000, 3, 1, 0, 0, 0⟩ = 951868800 from by decide,
    show civilToEpoch ⟨2000, 2, 29, 0, 0, 0⟩ = 951782400 from by decide]
  ring

/-! ## Claim C6 -/

theorem expected_length_eq : ENCODED_TIME_STRING_EXPECTED_LENGTH = 24 := rfl

theorem encoded_offsets_eq :
    ENCODED_TIME_STRING_YEAR_OFFSET = 0 ∧ ENCODED_TIME_STRING_MONTH_OFFSET = 5 ∧
    ENCODED_TIME_STRING_DAY_OFFSET = 8 ∧ ENCODED_TIME_STRING_HOUR_OFFSET = 11 ∧
    ENCODED_TIME_STRING_MINUTE_OFFSET = 14 ∧ ENCODED_TIME_STRING_SECOND_OFFSET = 17 :=
  ⟨rfl, rfl, rfl, rfl, rfl, rfl⟩

/-- C6: every input string whose length is not exactly 24 (the derived value
of `ENCODED_TIME_STRING_EXPECTED_LENGTH`) is rejected with the length error
before any field extraction is attempted; in particular the 23-character
string "2018-01-01T00:00:00+000" fails with `invalidLength`. -/
theorem C6_parser_rejects_bad_length :
    ENCODED_TIME_STRING_EXPECTED_LENGTH = 24 ∧
    (∀ s : String, s.length ≠ 24 →
      convert8601TimeStringToUnixRes s = .error .invalidLength) ∧
    convert8601TimeStringToUnixRes "2018-01-01T00:00:00+000" = .error .invalidLength := by
  refine ⟨rfl, fun s hs => ?_, rfl⟩
  unfold convert8601TimeStringToUnixRes
  rw [expected_length_eq, if_pos hs]

/-- Witness for C6 at the empty string. -/
theorem C6_parser_rejects_bad_length_witness :
    convert8601TimeStringToUnixRes "" = .error .invalidLength :=
  C6_parser_rejects_bad_length.2.1 "" (by decide)

/-! ## Claim C5 -/

/-- C5: whenever the input has the expected length 24 and all six fixed-offset
fields convert to integers, the parser succeeds with exactly the value
`timegmCustom` produces for the extracted and adjusted `struct tm`; no range
validation of field values takes place (no range hypotheses are needed).  In
particular "2018-01-02T03:04:05+0000" parses to
`civilToEpoch {2018, 1, 2, 3, 4, 5}`. -/
theorem C5_parser_accepts_wellformed :
    (∀ (s : String) (y mo d h mi sec : Int),
      s.length = ENCODED_TIME_STRING_EXPECTED_LENGTH →
      stringToInt (substr s ENCODED_TIME_STRING_YEAR_OFFSET
        ENCODED_TIME_STRING_YEAR_STRING_LENGTH) = some y →
      stringToInt (substr s ENCODED_TIME_STRING_MONTH_OFFSET
        ENCODED_TIME_STRING_MONTH_STRING_LENGTH) = some mo →
      stringToInt (substr s ENCODED_TIME_STRING_DAY_OFFSET
        ENCODED_TIME_STRING_DAY_STRING_LENGTH) = some d →
      stringToInt (substr s ENCODED_TIME_STRING_HOUR_OFFSET
        ENCODED_TIME_STRING_HOUR_STRING_LENGTH) = some h →
      stringToInt (substr s ENCODED_TIME_STRING_MINUTE_OFFSET
        ENCODED_TIME_STRING_MINUTE_STRING_LENGTH) = some mi →
      stringToInt (substr s ENCODED_TIME_STRING_SECOND_OFFSET
        ENCODED_TIME_STRING_SECOND_STRING_LENGTH) = some sec →
      convert8601TimeStringToUnixRes s =
        .ok (timegmCustom
          { tm_sec := sec, tm_min := mi, tm_hour := h, tm_mday := d,
            tm_mon := mo - 1, tm_year := y - 1900, tm_isdst := 0 })) ∧
    convert8601TimeStringToUnixRes "2018-01-02T03:04:05+0000" =
      .ok (civilToEpoch ⟨2018, 1, 2, 3, 4, 5⟩) := by
  refine ⟨fun s y mo d h mi sec hlen hy hmo hd hh hmi hsec => ?_, rfl⟩
  unfold convert8601TimeStringToUnixRes
  rw [if_neg (by simp [hlen]), hy, hmo, hd, hh, hmi, hsec]
  rfl

/-- Witness for C5 at the concrete input "2018-01-02T03:04:05+0000". -/
theorem C5_parser_accepts_wellformed_witness :
    convert8601TimeStringToUnixRes "2018-01-02T03:04:05+0000" =
      .ok (timegmCustom
        { tm_sec := 5, tm_min := 4, tm_hour := 3, tm_mday := 2,
          tm_mon := 1 - 1, tm_year := 2018 - 1900, tm_isdst := 0 }) :=
  C5_parser_accepts_wellformed.1 "2018-01-02T03:04:05+0000" 2018 1 2 3 4 5
    (by decide) (by decide) (by decide) (by decide) (by decide) (by decide) (by decide)

/-! ## Claim C9 -/

/-- C9: two length-24 inputs that agree byte-for-byte on the six digit-field
ranges (offsets 0-3, 5-6, 8-9, 11-12, 14-15, 17-18) produce identical parser
results, success or failure: the separator positions (4, 7, 10, 13, 16, 19)
and the trailing postfix bytes (20-23) are never examined. -/
theorem C9_parser_ignores_separator_bytes :
    ∀ s₁ s₂ : String, s₁.length = 24 → s₂.length = 24 →
      substr s₁ 0 4 = substr s₂ 0 4 →
      substr s₁ 5 2 = substr s₂ 5 2 →
      substr s₁ 8 2 = substr s₂ 8 2 →
      substr s₁ 11 2 = substr s₂ 11 2 →
      substr s₁ 14 2 = substr s₂ 14 2 →
      substr s₁ 17 2 = substr s₂ 17 2 →
      convert8601TimeStringToUnixRes s₁ = convert8601TimeStringToUnixRes s₂ := by
  intro s₁ s₂ hl₁ hl₂ h₁ h₂ h₃ h₄ h₅ h₆
  unfold convert8601TimeStringToUnixRes
  rw [expected_length_eq, if_neg (by simp [hl₁]), if_neg (by simp [hl₂])]
  rw [show ENCODED_TIME_STRING_YEAR_OFFSET = 0 from rfl,
    show ENCODED_TIME_STRING_MONTH_OFFSET = 5 from rfl,
    show ENCODED_TIME_STRING_DAY_OFFSET = 8 from rfl,
    show ENCODED_TIME_STRING_HOUR_OFFSET = 11 from rfl,
    show ENCODED_TIME_STRING_MINUTE_OFFSET = 14 from rfl,
    show ENCODED_TIME_STRING_SECOND_OFFSET = 17 from rfl,
    show ENCODED_TIME_STRING_YEAR_STRING_LENGTH = 4 from rfl,
    show ENCODED_TIME_STRING_MONTH_STRING_LENGTH = 2 from rfl,
    show ENCODED_TIME_STRING_DAY_STRING_LENGTH = 2 from rfl,
    show ENCODED_TIME_STRING_HOUR_STRING_LENGTH = 2 from rfl,
    show ENCODED_TIME_STRING_MINUTE_STRING_LENGTH = 2 from rfl,
    show ENCODED_TIME_STRING_SECOND_STRING_LENGTH = 2 from rfl,
    h₁, h₂, h₃, h₄, h₅, h₆]

/-- Witness for C9: junk separators and postfix give the same result as the
well-formed string with the same digit fields. -/
theorem C9_parser_ignores_separator_bytes_witness :
    convert8601TimeStringToUnixRes "2018-01-02T03:04:05+0000" =
      convert8601TimeStringToUnixRes "2018z01z02z03z04q05wXYZW" :=
  C9_parser_ignores_separator_bytes "2018-01-02T03:04:05+0000" "2018z01z02z03z04q05wXYZW"
    (by decide) (by decide) (by decide) (by decide) (by decide) (by decide) (by decide)
    (by decide)

/-! ## Claim C8 -/

/-- C8 counterexample: `getCurrentUnixTime` with a negative clock value
reports failure, yet the value behind the output parameter has been changed
from 0 to -1 — a partial result is observable. -/
theorem C8_counterexample_getCurrentUnixTime_writes :
    (getCurrentUnixTime (-1) (some 0)).1 = false ∧
      (getCurrentUnixTime (-1) (some 0)).2 ≠ some 0 := by decide

/-- C8 (amended): `convertToUtcTimeT`, `convert8601TimeStringToUnix` and
`convertTimeToUtcIso8601Rfc3339` leave the output pointee untouched whenever
they report failure; `getCurrentUnixTime` is the exception: with a non-null
output it always writes the clock value through the output parameter, and it
reports failure exactly when that value is negative. -/
theorem C8_failure_leaves_output_unchanged :
    (∀ (tm : Tm) (ret : Option Int),
      (convertToUtcTimeT tm ret).1 = false → (convertToUtcTimeT tm ret).2 = ret) ∧
    (∀ (s : String) (p : Option Int),
      (convert8601TimeStringToUnix s p).1 = false → (convert8601TimeStringToUnix s p).2 = p) ∧
    (∀ (g : Int → Option Tm) (m : Int) (prev : String),
      (convertTimeToUtcIso8601Rfc3339 g m prev).1 = false →
        (convertTimeToUtcIso8601Rfc3339 g m prev).2 = prev) ∧
    (∀ (now prev : Int),
      (getCurrentUnixTime now (some prev)).1 = false →
        (getCurrentUnixTime now (some prev)).2 = some now ∧ now < 0) := by
  refine ⟨fun tm ret h => ?_, fun s p h => ?_, fun g m prev h => ?_, fun now prev h => ?_⟩
  · rcases ret with _ | v
    · rfl
    · simp [convertToUtcTimeT] at h
  · rcases p with _ | prev
    · rfl
    · unfold convert8601TimeStringToUnix at h ⊢
      rcases hres : convert8601TimeStringToUnixRes s with e | v
      · rfl
      · rw [hres] at h
        simp at h
  · simp only [convertTimeToUtcIso8601Rfc3339] at h ⊢
    rcases hg : g (m.tdiv 1000) with _ | tm
    · rfl
    · rw [hg] at h
      dsimp only at h ⊢
      by_cases hb : (strftimeIsoDateTime tm).length = 0
      · rw [if_pos hb]
      · rw [if_neg hb] at h
        simp at h
  · unfold getCurrentUnixTime at h ⊢
    simp only [decide_eq_false_iff_not, not_le] at h
    exact ⟨rfl, h⟩

/-- Witness for C8 (amended): a failing parse leaves the pointee 7 in place. -/
theorem C8_failure_leaves_output_unchanged_witness :
    (convert8601TimeStringToUnix "" (some 7)).2 = some 7 :=
  C8_failure_leaves_output_unchanged.2.1 "" (some 7) (by decide)

/-! ## Formatter lemmas -/

/-- The modelled `strftime` rendering is never the empty string. -/
theorem strftimeIsoDateTime_length_pos (t : Tm) : 0 < (strftimeIsoDateTime t).length := by
  simp only [strftimeIsoDateTime, String.length_append]
  rw [show ("-" : String).length = 1 from rfl, show ("T" : String).length = 1 from rfl,
    show (":" : String).length = 1 from rfl]
  omega

/-- Successful path of the formatter: date-time rendering of the truncated
seconds, then `.`, the milliseconds field, and `Z`. -/
theorem convertTimeToUtcIso8601Rfc3339_success (g : Int → Option Tm) (m : Int) (prev : String)
    (tm : Tm) (hg : g (m.tdiv 1000) = some tm) :
    convertTimeToUtcIso8601Rfc3339 g m prev =
      (true, strftimeIsoDateTime tm ++ "." ++
        padWithZeros 3 (intToDecimalString (m.tmod 1000)) ++ "Z") := by
  simp only [convertTimeToUtcIso8601Rfc3339]
  rw [hg]
  dsimp only
  rw [if_neg (by have := strftimeIsoDateTime_length_pos tm; omega)]

/-- Exhaustive check of the milliseconds field for the values 0 to 999:
three characters, all digits, and parsing the field back gives the value. -/
theorem pad3_bounded : ∀ a : Nat, a < 10 → ∀ b : Nat, b < 100 →
    ((padWithZeros 3 (intToDecimalString ((100 * a + b : Nat) : Int))).length = 3 ∧
     (padWithZeros 3 (intToDecimalString ((100 * a + b : Nat) : Int))).data.all
       Char.isDigit = true ∧
     stringToInt (padWithZeros 3 (intToDecimalString ((100 * a + b : Nat) : Int))) =
       some ((100 * a + b : Nat) : Int)) := by decide

/-- The milliseconds field of a value in `[0, 1000)` is three zero-padded
decimal digits whose numeric value is the value itself. -/
theorem pad3_props (v : Int) (h0 : 0 ≤ v) (h1 : v < 1000) :
    (padWithZeros 3 (intToDecimalString v)).length = 3 ∧
    (padWithZeros 3 (intToDecimalString v)).data.all Char.isDigit = true ∧
    stringToInt (padWithZeros 3 (intToDecimalString v)) = some v := by
  have hv : ((v.toNat : Nat) : Int) = v := Int.toNat_of_nonneg h0
  have hcast : ((100 * (v.toNat / 100) + v.toNat % 100 : Nat) : Int) = v := by push_cast; omega
  have hb := pad3_bounded (v.toNat / 100) (by omega) (v.toNat % 100) (by omega)
  rw [hcast] at hb
  exact hb

/-- A negative value is rendered with a minus sign, which zero-padding keeps. -/
theorem pad_neg_has_dash (v : Int) (hv : v < 0) :
    '-' ∈ (padWithZeros 3 (intToDecimalString v)).data := by
  unfold padWithZeros intToDecimalString
  rw [if_pos hv]
  split
  · rw [String.data_append, String.data_append]
    simp
  · rw [String.data_append]
    simp

/-- Truncating remainder versus Euclidean remainder by 1000. -/
theorem tmod_1000_of_neg (m : Int) (hm : m < 0) (hnm : m % 1000 ≠ 0) : m.tmod 1000 < 0 := by
  have h2 : (-m).tmod 1000 = (-m) % 1000 := Int.tmod_eq_emod (by omega) (by norm_num)
  have a1 := Int.tmod_add_tdiv m 1000
  have a2 := Int.tmod_add_tdiv (-m) 1000
  rw [Int.neg_tdiv] at a2
  have h4 : 0 ≤ (-m) % 1000 := Int.emod_nonneg _ (by norm_num)
  have h5 : (-m) % 1000 ≠ 0 := by omega
  omega

/-! ## Claim C7 -/

/-- C7 counterexample: the instant 1500 ms after epoch-second 1000 is
epoch-second 1001 plus a remainder of 500 ms, so the formatted string is
"1970-01-01T00:16:41.500Z" — it does not end in ":40.500Z" as claimed. -/
theorem C7_counterexample_seconds_field :
    convertTimeToUtcIso8601Rfc3339 safeGetGmtime 1001500 "" =
      (true, "1970-01-01T00:16:41.500Z") ∧
    ¬((":40.500Z").data <:+ ("1970-01-01T00:16:41.500Z").data) :=
  ⟨by decide, by decide⟩

/-- C7 (amended): for a time point a non-negative whole number `m` of
milliseconds after the epoch, whenever the civil breakdown is available the
formatter succeeds and produces the rendered date-time followed by '.', the
value `m mod 1000` as exactly three zero-padded decimal digits, and 'Z'.  In
particular the instant 1500 ms after epoch-second 1000, which is epoch-second
1001 plus a 500 ms remainder, renders as "1970-01-01T00:16:41.500Z" (ending in
":41.500Z", not ":40.500Z"), and a 5 ms remainder renders as ".005Z", not
".5Z". -/
theorem C7_formatter_millisecond_field :
    (∀ (g : Int → Option Tm) (m : Int) (prev : String) (tm : Tm),
      0 ≤ m → g (m.tdiv 1000) = some tm →
      convertTimeToUtcIso8601Rfc3339 g m prev =
        (true, strftimeIsoDateTime tm ++ "." ++
          padWithZeros 3 (intToDecimalString (m % 1000)) ++ "Z") ∧
      (padWithZeros 3 (intToDecimalString (m % 1000))).length = 3 ∧
      (padWithZeros 3 (intToDecimalString (m % 1000))).data.all Char.isDigit = true ∧
      stringToInt (padWithZeros 3 (intToDecimalString (m % 1000))) = some (m % 1000)) ∧
    convertTimeToUtcIso8601Rfc3339 safeGetGmtime 1001500 "" =
      (true, "1970-01-01T00:16:41.500Z") ∧
    convertTimeToUtcIso8601Rfc3339 safeGetGmtime 5 "" =
      (true, "1970-01-01T00:00:00.005Z") := by
  refine ⟨fun g m prev tm hm hg => ?_, by decide, by decide⟩
  have h0 : 0 ≤ m % 1000 := Int.emod_nonneg m (by norm_num)
  have h1 : m % 1000 < 1000 := Int.emod_lt_of_pos m (by norm_num)
  have hp := pad3_props (m % 1000) h0 h1
  refine ⟨?_, hp.1, hp.2.1, hp.2.2⟩
  rw [convertTimeToUtcIso8601Rfc3339_success g m prev tm hg,
    Int.tmod_eq_emod hm (by norm_num)]

/-- Witness for C7 at the concrete instant 5 ms after the epoch. -/
theorem C7_formatter_millisecond_field_witness :
    convertTimeToUtcIso8601Rfc3339 safeGetGmtime 5 "" =
      (true, strftimeIsoDateTime (tmOfCivil (epochToCivil ((5 : Int).tdiv 1000))) ++ "." ++
        padWithZeros 3 (intToDecimalString ((5 : Int) % 1000)) ++ "Z") :=
  (C7_formatter_millisecond_field.1 safeGetGmtime 5 ""
    (tmOfCivil (epochToCivil ((5 : Int).tdiv 1000))) (by norm_num) rfl).1

/-! ## Claim C10 -/

/-- C10: for a time point strictly before the epoch whose total-millisecond
count `m` is not a multiple of 1000, the formatter computes the fractional
field from the truncating C++ remainder `m % 1000`, which is negative, and the
whole-second part by truncation toward zero (`m` tdiv 1000), so the rendered
fractional field is not three zero-padded decimal digits and the output does
not match the documented `YYYY-MM-DDTHH:MM:SS.mmmZ` profile; only for time
points at or after the epoch does the rendered field carry the true value
`m mod 1000`. -/
theorem C10_negative_millisecond_field (m : Int) (prev : String) (hm : m < 0)
    (hnm : m % 1000 ≠ 0) :
    m.tmod 1000 < 0 ∧
    convertTimeToUtcIso8601Rfc3339 safeGetGmtime m prev =
      (true, strftimeIsoDateTime (tmOfCivil (epochToCivil (m.tdiv 1000))) ++ "." ++
        padWithZeros 3 (intToDecimalString (m.tmod 1000)) ++ "Z") ∧
    ¬((padWithZeros 3 (intToDecimalString (m.tmod 1000))).length = 3 ∧
      (padWithZeros 3 (intToDecimalString (m.tmod 1000))).data.all Char.isDigit = true) ∧
    (∀ m₂ : Int, 0 ≤ m₂ →
      m₂.tmod 1000 = m₂ % 1000 ∧
      stringToInt (padWithZeros 3 (intToDecimalString (m₂ % 1000))) = some (m₂ % 1000)) := by
  have htm : m.tmod 1000 < 0 := tmod_1000_of_neg m hm hnm
  refine ⟨htm, convertTimeToUtcIso8601Rfc3339_success _ _ _ _ rfl, ?_, fun m₂ hm₂ =>
    ⟨Int.tmod_eq_emod hm₂ (by norm_num), ?_⟩⟩
  · rintro ⟨-, hall⟩
    have hd := pad_neg_has_dash (m.tmod 1000) htm
    have := List.all_eq_true.mp hall '-' hd
    simp at this
  · have h0 : 0 ≤ m₂ % 1000 := Int.emod_nonneg m₂ (by norm_num)
    have h1 : m₂ % 1000 < 1000 := Int.emod_lt_of_pos m₂ (by norm_num)
    exact (pad3_props (m₂ % 1000) h0 h1).2.2

/-- Witness for C10 at the concrete instant 1500 ms before the epoch. -/
theorem C10_negative_millisecond_field_witness :
    (-1500 : Int).tmod 1000 < 0 :=
  (C10_negative_millisecond_field (-1500) "" (by norm_num) (by decide)).1

/-! ## Claim C3 -/


theorem isGregorianLeap_iff (Y : Int) : isGregorianLeap Y = true ↔ IsGregorianLeapYear Y := by
  unfold isGregorianLeap IsGregorianLeapYear
  simp [Bool.and_eq_true, Bool.or_eq_true, beq_iff_eq, bne_iff_ne]

theorem yearLength_bounds (y : Int) : 365 ≤ yearLength y ∧ yearLength y ≤ 366 := by
  unfold yearLength
  split <;> norm_num

theorem epochDaysJan1_1970 : epochDaysJan1 1970 = 0 := by decide

theorem epochDaysJan1_succ (y : Int) :
    epochDaysJan1 (y + 1) = epochDaysJan1 y + yearLength y := by
  unfold epochDaysJan1 yearLength
  rw [numLeapDays_eq_ediv, numLeapDays_eq_ediv]
  by_cases h : isGregorianLeap y = true
  · rw [if_pos h]
    unfold isGregorianLeap at h
    simp only [Bool.and_eq_true, Bool.or_eq_true, beq_iff_eq, bne_iff_ne, ne_eq] at h
    omega
  · rw [if_neg h]
    unfold isGregorianLeap at h
    simp only [Bool.and_eq_true, Bool.or_eq_true, beq_iff_eq, bne_iff_ne, ne_eq, not_and,
      not_or, not_not] at h
    omega

theorem epochDaysJan1_mono (k : Nat) (y : Int) :
    epochDaysJan1 y + 365 * k ≤ epochDaysJan1 (y + k) := by
  induction k with
  | zero => simp
  | succ j ih =>
    have hstep := epochDaysJan1_succ (y + j)
    have hb := yearLength_bounds (y + j)
    have hc : (y + ((j + 1 : Nat) : Int)) = (y + (j : Nat)) + 1 := by push_cast; ring
    rw [hc, hstep]
    push_cast
    push_cast at ih
    omega

theorem yearFromDays_up (n : Nat) : ∀ fuel : Nat, n ≤ fuel → ∀ y doy : Int,
    0 ≤ doy → doy < yearLength (y + (n : Nat)) →
    yearFromDays fuel y (epochDaysJan1 (y + (n : Nat)) - epochDaysJan1 y + doy) =
      (y + (n : Nat), doy) := by
  induction n with
  | zero =>
    intro fuel _ y doy h0 h1
    simp only [Nat.cast_zero, add_zero] at h1 ⊢
    rw [show epochDaysJan1 y - epochDaysJan1 y + doy = doy by ring]
    cases fuel with
    | zero => rfl
    | succ f =>
      simp only [yearFromDays]
      rw [if_neg (by omega), if_neg (by omega)]
  | succ k ih =>
    intro fuel hf y doy h0 h1
    cases fuel with
    | zero => omega
    | succ f =>
      have hc : (y + ((k + 1 : Nat) : Int)) = (y + 1) + ((k : Nat) : Int) := by push_cast; ring
      rw [hc] at h1 ⊢
      have hstep := epochDaysJan1_succ y
      have hmono := epochDaysJan1_mono k (y + 1)
      have hyl := yearLength_bounds y
      have hyl2 := yearLength_bounds (y + 1 + ((k : Nat) : Int))
      simp only [yearFromDays]
      rw [if_neg (by omega), if_pos (by omega)]
      rw [show epochDaysJan1 (y + 1 + ((k : Nat) : Int)) - epochDaysJan1 y + doy - yearLength y =
        epochDaysJan1 (y + 1 + ((k : Nat) : Int)) - epochDaysJan1 (y + 1) + doy by omega]
      exact ih f (by omega) (y + 1) doy h0 h1

theorem yearFromDays_down (n : Nat) : ∀ fuel : Nat, n ≤ fuel → ∀ y doy : Int,
    0 ≤ doy → doy < yearLength (y - (n : Nat)) →
    yearFromDays fuel y (epochDaysJan1 (y - (n : Nat)) - epochDaysJan1 y + doy) =
      (y - (n : Nat), doy) := by
  induction n with
  | zero =>
    intro fuel _ y doy h0 h1
    simp only [Nat.cast_zero, sub_zero] at h1 ⊢
    rw [show epochDaysJan1 y - epochDaysJan1 y + doy = doy by ring]
    cases fuel with
    | zero => rfl
    | succ f =>
      simp only [yearFromDays]
      rw [if_neg (by omega), if_neg (by omega)]
  | succ k ih =>
    intro fuel hf y doy h0 h1
    cases fuel with
    | zero => omega
    | succ f =>
      have hc : (y - ((k + 1 : Nat) : Int)) = (y - 1) - ((k : Nat) : Int) := by push_cast; ring
      rw [hc] at h1 ⊢
      have hstep := epochDaysJan1_succ (y - 1)
      rw [show y - 1 + 1 = y from by ring] at hstep
      have hstep2 := epochDaysJan1_succ (y - 1 - ((k : Nat) : Int))
      rw [show y - 1 - ((k : Nat) : Int) + 1 = y - ((k : Nat) : Int) from by ring] at hstep2
      have hmono2 := epochDaysJan1_mono k (y - ((k : Nat) : Int))
      rw [show y - ((k : Nat) : Int) + ((k : Nat) : Int) = y from by ring] at hmono2
      have hyl := yearLength_bounds (y - 1)
      have hyl2 := yearLength_bounds (y - 1 - ((k : Nat) : Int))
      simp only [yearFromDays]
      rw [if_pos (by omega)]
      rw [show epochDaysJan1 (y - 1 - ((k : Nat) : Int)) - epochDaysJan1 y + doy +
        yearLength (y - 1) = epochDaysJan1 (y - 1 - ((k : Nat) : Int)) -
          epochDaysJan1 (y - 1) + doy by omega]
      exact ih f (by omega) (y - 1) doy h0 h1

theorem monthLength_bounds (leap : Bool) (m : Int) :
    28 ≤ monthLength leap m ∧ monthLength leap m ≤ 31 := by
  unfold monthLength
  split
  · split <;> norm_num
  · split <;> norm_num

theorem monthPrefixDays_le (leap : Bool) (j k : Nat) :
    monthPrefixDays leap j ≤ monthPrefixDays leap (j + k) := by
  induction k with
  | zero => simp
  | succ i ih =>
    have heq : monthPrefixDays leap (j + i + 1) =
        monthPrefixDays leap (j + i) + monthLength leap ((j + i + 1 : Nat) : Int) := rfl
    have hb := monthLength_bounds leap ((j + i + 1 : Nat) : Int)
    have hj : j + (i + 1) = j + i + 1 := rfl
    rw [hj, heq]
    omega

theorem monthPrefixDays_nonneg (leap : Bool) (k : Nat) : 0 ≤ monthPrefixDays leap k := by
  have h := monthPrefixDays_le leap 0 k
  simpa using h

theorem tables_eq_monthPrefixDays : ∀ k : Nat, k < 12 →
    kDaysUptoMonthLeapYear.getD k 0 = monthPrefixDays true k ∧
    kDaysUptoMonth.getD k 0 = monthPrefixDays false k := by decide

theorem monthPrefixDays_twelve :
    monthPrefixDays true 12 = 366 ∧ monthPrefixDays false 12 = 365 := by decide

theorem monthFromYearDay_correct (leap : Bool) (n : Nat) : ∀ fuel : Nat, n ≤ fuel →
    ∀ (j : Nat) (d : Int), 1 ≤ d → d ≤ monthLength leap (((j + n : Nat) : Int) + 1) →
    monthFromYearDay fuel leap (((j : Nat) : Int) + 1)
      (monthPrefixDays leap (j + n) - monthPrefixDays leap j + (d - 1)) =
      (((j + n : Nat) : Int) + 1, d) := by
  induction n with
  | zero =>
    intro fuel _ j d h1 h2
    simp only [Nat.add_zero] at h2 ⊢
    rw [show monthPrefixDays leap j - monthPrefixDays leap j + (d - 1) = d - 1 by ring]
    cases fuel with
    | zero =>
      simp only [monthFromYearDay]
      rw [show d - 1 + 1 = d by ring]
    | succ f =>
      simp only [monthFromYearDay]
      rw [if_pos (by omega), show d - 1 + 1 = d by ring]
  | succ k ih =>
    intro fuel hf j d h1 h2
    cases fuel with
    | zero => omega
    | succ f =>
      rw [show j + (k + 1) = j + 1 + k from by ring] at h2 ⊢
      have heq : monthPrefixDays leap (j + 1) =
          monthPrefixDays leap j + monthLength leap ((j + 1 : Nat) : Int) := rfl
      push_cast at heq
      have hble := monthPrefixDays_le leap (j + 1) k
      have hml := monthLength_bounds leap (((j : Nat) : Int) + 1)
      simp only [monthFromYearDay]
      rw [if_neg (by omega)]
      rw [show monthPrefixDays leap (j + 1 + k) - monthPrefixDays leap j + (d - 1) -
        monthLength leap (((j : Nat) : Int) + 1) =
        monthPrefixDays leap (j + 1 + k) - monthPrefixDays leap (j + 1) + (d - 1) by omega]
      rw [show ((j : Nat) : Int) + 1 + 1 = ((j + 1 : Nat) : Int) + 1 from by push_cast; ring]
      exact ih f (by omega) (j + 1) d h1 h2

/-- C3: for every civil time with year in [1901, 2100], month in [1, 12], a
day valid for that month and year, hour in [0, 23], minute in [0, 59] and
second in [0, 59], the standard UTC epoch-to-civil breakdown (the modelled
external collaborator) applied to `civilToEpoch` (`timegmCustom`) yields the
civil time again. -/
theorem C3_roundtrip (t : CivilTime)
    (hy1 : 1901 ≤ t.year) (hy2 : t.year ≤ 2100)
    (hm1 : 1 ≤ t.month) (hm2 : t.month ≤ 12)
    (hd1 : 1 ≤ t.day) (hd2 : t.day ≤ daysInMonth t.year t.month)
    (hh1 : 0 ≤ t.hour) (hh2 : t.hour ≤ 23)
    (hmi1 : 0 ≤ t.minute) (hmi2 : t.minute ≤ 59)
    (hs1 : 0 ≤ t.second) (hs2 : t.second ≤ 59) :
    epochToCivil (civilToEpoch t) = t := by
  obtain ⟨y, mo, d, h, mi, s⟩ := t
  dsimp only at hy1 hy2 hm1 hm2 hd1 hd2 hh1 hh2 hmi1 hmi2 hs1 hs2
  have hleapB : IsLeapYear (y - 1900) = isGregorianLeap y :=
    Bool.eq_iff_iff.mpr ((isLeapYear_eq_gregorian y (by omega)).trans (isGregorianLeap_iff y).symm)
  have hk : (((mo - 1).toNat : Nat) : Int) = mo - 1 := Int.toNat_of_nonneg (by omega)
  have htab := tables_eq_monthPrefixDays (mo - 1).toNat (by omega)
  rw [civilToEpoch_split, hleapB]
  have htabIf : (if isGregorianLeap y = true then
        kDaysUptoMonthLeapYear.getD (mo - 1).toNat 0
      else kDaysUptoMonth.getD (mo - 1).toNat 0) =
      monthPrefixDays (isGregorianLeap y) (mo - 1).toNat := by
    cases isGregorianLeap y
    · simpa using htab.2
    · simpa using htab.1
  rw [htabIf]
  -- bounds for the day of year
  have hP1 : monthPrefixDays (isGregorianLeap y) ((mo - 1).toNat + 1) =
      monthPrefixDays (isGregorianLeap y) (mo - 1).toNat +
        monthLength (isGregorianLeap y) (((mo - 1).toNat + 1 : Nat) : Int) := rfl
  have hcastm : (((mo - 1).toNat + 1 : Nat) : Int) = mo := by push_cast; omega
  rw [hcastm] at hP1
  have hP2 := monthPrefixDays_le (isGregorianLeap y) ((mo - 1).toNat + 1)
    (12 - ((mo - 1).toNat + 1))
  rw [show (mo - 1).toNat + 1 + (12 - ((mo - 1).toNat + 1)) = 12 from by omega] at hP2
  have hP12 : monthPrefixDays (isGregorianLeap y) 12 = yearLength y := by
    unfold yearLength
    cases hgy : isGregorianLeap y
    · simpa using monthPrefixDays_twelve.2
    · simpa using monthPrefixDays_twelve.1
  have hPn := monthPrefixDays_nonneg (isGregorianLeap y) (mo - 1).toNat
  have hdm : d ≤ monthLength (isGregorianLeap y) mo := by
    unfold daysInMonth at hd2
    exact hd2
  have hdoy0 : 0 ≤ monthPrefixDays (isGregorianLeap y) (mo - 1).toNat + (d - 1) := by omega
  have hdoyLt : monthPrefixDays (isGregorianLeap y) (mo - 1).toNat + (d - 1) < yearLength y := by
    omega
  -- year extraction
  have hyear : yearFromDays 6000 1970
      (epochDaysJan1 y + (monthPrefixDays (isGregorianLeap y) (mo - 1).toNat + (d - 1))) =
      (y, monthPrefixDays (isGregorianLeap y) (mo - 1).toNat + (d - 1)) := by
    rcases le_or_lt 1970 y with hyc | hyc
    · have hn : (1970 : Int) + (((y - 1970).toNat : Nat) : Int) = y := by omega
      have hup := yearFromDays_up (y - 1970).toNat 6000 (by omega) 1970
        (monthPrefixDays (isGregorianLeap y) (mo - 1).toNat + (d - 1)) hdoy0
        (by rw [hn]; exact hdoyLt)
      rw [hn, epochDaysJan1_1970] at hup
      rw [show epochDaysJan1 y - 0 +
        (monthPrefixDays (isGregorianLeap y) (mo - 1).toNat + (d - 1)) =
        epochDaysJan1 y + (monthPrefixDays (isGregorianLeap y) (mo - 1).toNat + (d - 1))
        from by ring] at hup
      exact hup
    · have hn : (1970 : Int) - (((1970 - y).toNat : Nat) : Int) = y := by omega
      have hdn := yearFromDays_down (1970 - y).toNat 6000 (by omega) 1970
        (monthPrefixDays (isGregorianLeap y) (mo - 1).toNat + (d - 1)) hdoy0
        (by rw [hn]; exact hdoyLt)
      rw [hn, epochDaysJan1_1970] at hdn
      rw [show epochDaysJan1 y - 0 +
        (monthPrefixDays (isGregorianLeap y) (mo - 1).toNat + (d - 1)) =
        epochDaysJan1 y + (monthPrefixDays (isGregorianLeap y) (mo - 1).toNat + (d - 1))
        from by ring] at hdn
      exact hdn
  -- month extraction
  have hmonth : monthFromYearDay 11 (isGregorianLeap y) 1
      (monthPrefixDays (isGregorianLeap y) (mo - 1).toNat + (d - 1)) = (mo, d) := by
    have hmc := monthFromYearDay_correct (isGregorianLeap y) (mo - 1).toNat 11 (by omega) 0 d
      (by omega)
      (by rw [show (((0 + (mo - 1).toNat : Nat) : Nat) : Int) + 1 = mo from by push_cast; omega]
          exact hdm)
    simp only [Nat.zero_add, Nat.cast_zero, zero_add] at hmc
    have hp0 : monthPrefixDays (isGregorianLeap y) 0 = 0 := rfl
    rw [hp0, show monthPrefixDays (isGregorianLeap y) (mo - 1).toNat - 0 + (d - 1) =
      monthPrefixDays (isGregorianLeap y) (mo - 1).toNat + (d - 1) from by ring,
      show (((mo - 1).toNat : Nat) : Int) + 1 = mo from by omega] at hmc
    exact hmc
  -- assemble
  simp only [epochToCivil]
  have hdiv : (86400 * (epochDaysJan1 y + monthPrefixDays (isGregorianLeap y) (mo - 1).toNat +
      (d - 1)) + (h * 3600 + mi * 60 + s)) / 86400 =
      epochDaysJan1 y + (monthPrefixDays (isGregorianLeap y) (mo - 1).toNat + (d - 1)) := by
    omega
  have hmod : (86400 * (epochDaysJan1 y + monthPrefixDays (isGregorianLeap y) (mo - 1).toNat +
      (d - 1)) + (h * 3600 + mi * 60 + s)) % 86400 = h * 3600 + mi * 60 + s := by
    omega
  rw [hdiv, hmod, hyear]
  dsimp only
  rw [hmonth]
  dsimp only
  rw [show (h * 3600 + mi * 60 + s) / 3600 = h from by omega,
    show (h * 3600 + mi * 60 + s) % 3600 / 60 = mi from by omega,
    show (h * 3600 + mi * 60 + s) % 60 = s from by omega]

/-- Witness for C3 at the leap day 2000-02-29T12:30:30. -/
theorem C3_roundtrip_witness :
    epochToCivil (civilToEpoch ⟨2000, 2, 29, 12, 30, 30⟩) = ⟨2000, 2, 29, 12, 30, 30⟩ :=
  C3_roundtrip ⟨2000, 2, 29, 12, 30, 30⟩ (by decide) (by decide) (by decide) (by decide)
    (by decide) (by decide) (by decide) (by decide) (by decide) (by decide) (by decide)
    (by decide)
